import Mathlib

/-!
Shallow embedding of the document indexing and retrieval engine of
`rag_builder.py` (class `RAGBuilder`), together with proofs checking the
specification's claims about it.

Modelling conventions:
  * Python strings are `List Char` (`Doc`); `str.strip()` is `pyStrip`,
    `str.lower()` maps `Char.toLower` over the characters.
  * Python dicts built by the code are association lists (`PyDict`)
    where, as with `{**a, **b}`, a later binding wins on lookup.
  * The FAISS flat L2 index is a dimension plus the list of stored
    vectors, in insertion order.  Embedding vectors are `List Int`
    (their numeric content is opaque to every property checked here;
    only counts, dimensions, and distance comparisons matter, and those
    are modelled with exact integer arithmetic).
  * External effects (the embedding HTTP service, file reading, the
    spacy sentence segmenter, `datetime.now`, `os.walk`, the artifacts
    present on disk) are oracle parameters bundled in `Deps` or passed
    as explicit arguments; fallible Python code returns `Except`.
-/

/-! ### Python string helpers -/

abbrev Doc := List Char

abbrev PyDict := List (String × String)

/-- Model of Python `str.strip()`: drop whitespace from both ends.
The source computes it for chunk accumulators built as
`sentence + " " + ...`; matches `rag_builder.py` lines 84, 96, 101. -/
def pyStrip (l : Doc) : Doc :=
  List.rdropWhile Char.isWhitespace (l.dropWhile Char.isWhitespace)

/-- Model of Python `str.lower()` on a character list. -/
def lowerL (l : List Char) : List Char := l.map Char.toLower

/-- Model of Python `s.endswith(suffix)`. -/
def pyEndsWith (s suffix : List Char) : Bool := suffix.isSuffixOf s

/-- Model of `os.path.basename`: the part after the last `/`. -/
def basename (p : String) : String :=
  ⟨(p.toList.reverse.takeWhile (fun c => !(c == '/'))).reverse⟩

/-- Model of `os.path.join(root, file)` on POSIX paths. -/
def pathJoin (root file : String) : String := root ++ "/" ++ file

/-- Dict lookup where the last binding for a key wins, matching lookup in a
Python dict built left-to-right with `{..., **extra}` overriding. -/
def dictGet (m : PyDict) (k : String) : Option String :=
  (m.reverse.find? (fun p => p.1 == k)).map Prod.snd

/-! ### Chunker (`RAGBuilder.split_text`, lines 78-120) -/

/-- The greedy sentence-packing loop of `split_text` (lines 86-101 and
109-118, which are the same loop): accumulate sentences into
`current_chunk`, flushing a stripped copy whenever the next sentence
would overflow `chunk_size`, and flush the remainder at the end. -/
def packChunks (chunkSize : Nat) : List Doc → Doc → List Doc → List Doc
  | [], cur, chunks => if cur.isEmpty then chunks else chunks ++ [pyStrip cur]
  | s :: rest, cur, chunks =>
    if cur.length + s.length ≤ chunkSize then
      packChunks chunkSize rest (cur ++ s ++ [' ']) chunks
    else if cur.isEmpty then
      packChunks chunkSize rest (s ++ [' ']) chunks
    else
      packChunks chunkSize rest (s ++ [' ']) (chunks ++ [pyStrip cur])

/-- Line 84 / line 107: strip each raw sentence and keep the non-empty ones. -/
def cleanSents (raw : List Doc) : List Doc :=
  (raw.map pyStrip).filter (fun s => !s.isEmpty)

/-- The sentence-final punctuation class of the fallback regex
`(?<=[。！？!?])` (line 106). -/
def isSentEnd (c : Char) : Bool :=
  c = '。' ∨ c = '！' ∨ c = '？' ∨ c = '!' ∨ c = '?'

/-- Model of `re.split(r'(?<=[。！？!?])', text)`: cut after every
sentence-final punctuation mark; like `re.split`, always returns at
least one (possibly empty) piece. -/
def regexRawSplit : Doc → List Doc
  | [] => [[]]
  | c :: rest =>
    if isSentEnd c then [c] :: regexRawSplit rest
    else
      match regexRawSplit rest with
      | [] => [[c]]
      | piece :: pieces => (c :: piece) :: pieces

/-- The fallback sentence list of lines 106-107. -/
def regexSentences (text : Doc) : List Doc := cleanSents (regexRawSplit text)

/-- Model of `RAGBuilder.split_text(text, chunk_size)`.  The spacy segmenter is an
external ML model, passed as the raw sentence list `spacyRaw` it
produces for `text`.  The fallback (lines 104-118) reuses the Python
variable `current_chunk`, which is provably `""` whenever `chunks` is
empty after the first loop (see `packChunks_ne_nil`), so the fallback
run starts from an empty accumulator here exactly as in the source. -/
def split_text (spacyRaw : List Doc) (text : Doc) (chunkSize : Nat) : List Doc :=
  let chunks := packChunks chunkSize (cleanSents spacyRaw) [] []
  if chunks.isEmpty then packChunks chunkSize (regexSentences text) [] [] else chunks

/-! ### pyStrip lemmas -/

theorem pyStrip_append_space (l : Doc) : pyStrip (l ++ [' ']) = pyStrip l := by
  unfold pyStrip
  rw [List.dropWhile_append]
  split
  · next h =>
    rw [List.isEmpty_iff] at h
    simp [List.dropWhile, h, List.rdropWhile]
  · exact List.rdropWhile_concat_pos _ _ _ (by simp)

theorem pyStrip_length_le (l : Doc) : (pyStrip l).length ≤ l.length :=
  le_trans ((List.rdropWhile_prefix _ _).length_le)
    ((List.dropWhile_suffix _).length_le)

theorem pyStrip_eq_nil_iff {l : Doc} :
    pyStrip l = [] ↔ ∀ c ∈ l, Char.isWhitespace c := by
  unfold pyStrip
  rw [List.rdropWhile_eq_nil_iff]
  constructor
  · intro h c hc
    have hsplit := List.takeWhile_append_dropWhile Char.isWhitespace l
    rw [← hsplit] at hc
    rcases List.mem_append.1 hc with h1 | h1
    · exact List.mem_takeWhile_imp h1
    · exact h c h1
  · intro h c hc
    exact h c (List.IsSuffix.mem hc (List.dropWhile_suffix _))

theorem pyStrip_ne_nil {l : Doc} {c : Char} (hc : c ∈ l)
    (hw : ¬ Char.isWhitespace c) : pyStrip l ≠ [] := by
  intro h
  exact hw (pyStrip_eq_nil_iff.1 h c hc)

theorem dropWhile_eq_self_of_head {l : Doc} (h : l.dropWhile Char.isWhitespace = l) :
    ∀ l', l' <+: l → l'.dropWhile Char.isWhitespace = l' := by
  intro l' hp
  cases l' with
  | nil => simp
  | cons a t =>
    rcases hp with ⟨u, hu⟩
    have ha : ¬ Char.isWhitespace a := by
      intro hws
      rw [← hu, List.cons_append, List.dropWhile_cons_of_pos hws] at h
      have hlen := congrArg List.length h
      have hle : ((t ++ u).dropWhile Char.isWhitespace).length ≤ (t ++ u).length :=
        (List.dropWhile_suffix Char.isWhitespace).length_le
      simp only [List.length_cons, List.length_append] at hlen hle
      omega
    rw [List.dropWhile_cons_of_neg ha]

theorem pyStrip_idem (l : Doc) : pyStrip (pyStrip l) = pyStrip l := by
  unfold pyStrip
  have h1 : (l.dropWhile Char.isWhitespace).dropWhile Char.isWhitespace
      = l.dropWhile Char.isWhitespace := List.dropWhile_idempotent _ _
  have h2 : (List.rdropWhile Char.isWhitespace (l.dropWhile Char.isWhitespace)).dropWhile
      Char.isWhitespace = List.rdropWhile Char.isWhitespace (l.dropWhile Char.isWhitespace) :=
    dropWhile_eq_self_of_head h1 _ (List.rdropWhile_prefix _ _)
  rw [h2, List.rdropWhile_idempotent]

theorem pyStrip_fixed_of_mem_clean {s : Doc} {raw : List Doc}
    (h : s ∈ cleanSents raw) : pyStrip s = s ∧ s ≠ [] := by
  unfold cleanSents at h
  rw [List.mem_filter] at h
  obtain ⟨hmem, hne⟩ := h
  rw [List.mem_map] at hmem
  obtain ⟨t, _, rfl⟩ := hmem
  refine ⟨pyStrip_idem t, ?_⟩
  simpa using hne

theorem exists_not_ws_of_strip_fixed {s : Doc} (hf : pyStrip s = s) (hne : s ≠ []) :
    ∃ c ∈ s, ¬ Char.isWhitespace c := by
  by_contra h
  push_neg at h
  apply hne
  rw [← hf]
  exact pyStrip_eq_nil_iff.2 (by simpa using h)

theorem packChunks_mem_of_mem (n : Nat) (c : Doc) (sents : List Doc) :
    ∀ (cur : Doc) (chunks : List Doc), c ∈ chunks → c ∈ packChunks n sents cur chunks := by
  induction sents with
  | nil =>
    intro cur chunks h
    unfold packChunks
    split
    · exact h
    · exact List.mem_append_left _ h
  | cons s rest ih =>
    intro cur chunks h
    unfold packChunks
    split
    · exact ih _ _ h
    · split
      · exact ih _ _ h
      · exact ih _ _ (List.mem_append_left _ h)

theorem packChunks_strip_mem (n : Nat) (sents : List Doc) :
    ∀ (cur : Doc) (chunks : List Doc), cur ≠ [] → n < cur.length →
      pyStrip cur ∈ packChunks n sents cur chunks := by
  induction sents with
  | nil =>
    intro cur chunks hne _
    unfold packChunks
    rw [if_neg (by simp [List.isEmpty_iff, hne])]
    exact List.mem_append_right _ (List.mem_singleton.2 rfl)
  | cons s rest ih =>
    intro cur chunks hne hlen
    unfold packChunks
    rw [if_neg (by omega), if_neg (by simp [List.isEmpty_iff, hne])]
    exact packChunks_mem_of_mem n _ rest _ _
      (List.mem_append_right _ (List.mem_singleton.2 rfl))

theorem packChunks_oversized (n : Nat) (s : Doc) (hs : pyStrip s = s)
    (hlen : n < s.length) (sents : List Doc) :
    ∀ (cur : Doc) (chunks : List Doc), s ∈ sents →
      s ∈ packChunks n sents cur chunks := by
  induction sents with
  | nil => intro cur chunks h; cases h
  | cons t rest ih =>
    intro cur chunks hmem
    unfold packChunks
    rcases List.mem_cons.1 hmem with rfl | hmem'
    · rw [if_neg (by omega)]
      have hres : ∀ chs : List Doc, s ∈ packChunks n rest (s ++ [' ']) chs := by
        intro chs
        have hkey := packChunks_strip_mem n rest (s ++ [' ']) chs (by simp)
          (by simp only [List.length_append, List.length_singleton]; omega)
        rwa [pyStrip_append_space, hs] at hkey
      split
      · exact hres chunks
      · exact hres (chunks ++ [pyStrip cur])
    · split
      · exact ih _ _ hmem'
      · split
        · exact ih _ _ hmem'
        · exact ih _ _ hmem'

theorem packChunks_ne_nil_of_cur (n : Nat) (sents : List Doc) :
    ∀ (cur : Doc) (chunks : List Doc), cur ≠ [] →
      packChunks n sents cur chunks ≠ [] := by
  induction sents with
  | nil =>
    intro cur chunks h
    unfold packChunks
    rw [if_neg (by simp [List.isEmpty_iff, h])]
    simp
  | cons s rest ih =>
    intro cur chunks h
    unfold packChunks
    split
    · exact ih _ _ (by simp)
    · split
      · exact ih _ _ (by simp)
      · exact ih _ _ (by simp)

theorem packChunks_ne_nil (n : Nat) (s : Doc) (rest : List Doc)
    (cur : Doc) (chunks : List Doc) :
    packChunks n (s :: rest) cur chunks ≠ [] := by
  unfold packChunks
  split
  · exact packChunks_ne_nil_of_cur n rest _ _ (by simp)
  · split
    · exact packChunks_ne_nil_of_cur n rest _ _ (by simp)
    · exact packChunks_ne_nil_of_cur n rest _ _ (by simp)

theorem packChunks_good (n : Nat) (S : List Doc)
    (hS : ∀ s ∈ S, pyStrip s = s ∧ s ≠ []) (sents : List Doc) :
    ∀ (cur : Doc) (chunks : List Doc),
      (∀ s ∈ sents, s ∈ S) →
      (∀ ch ∈ chunks, ch ≠ [] ∧ (ch.length ≤ n ∨ ch ∈ S)) →
      (cur = [] ∨ ((∃ c ∈ cur, ¬ Char.isWhitespace c) ∧
        ((pyStrip cur).length ≤ n ∨ pyStrip cur ∈ S))) →
      ∀ ch ∈ packChunks n sents cur chunks,
        ch ≠ [] ∧ (ch.length ≤ n ∨ ch ∈ S) := by
  induction sents with
  | nil =>
    intro cur chunks _ hchunks hcur ch hch
    unfold packChunks at hch
    split at hch
    · exact hchunks ch hch
    · next hemp =>
      rcases List.mem_append.1 hch with h1 | h1
      · exact hchunks ch h1
      · rw [List.mem_singleton] at h1
        subst h1
        rcases hcur with rfl | ⟨⟨c, hc, hw⟩, hgood⟩
        · simp at hemp
        · exact ⟨pyStrip_ne_nil hc hw, hgood⟩
  | cons s rest ih =>
    intro cur chunks hsents hchunks hcur ch hch
    have hsS := hsents s (List.mem_cons_self _ _)
    obtain ⟨hfix, hne⟩ := hS s hsS
    obtain ⟨c0, hc0, hw0⟩ := exists_not_ws_of_strip_fixed hfix hne
    have hrest : ∀ t ∈ rest, t ∈ S := fun t ht => hsents t (List.mem_cons_of_mem _ ht)
    unfold packChunks at hch
    split at hch
    · next hfit =>
      refine ih _ _ hrest hchunks (Or.inr ⟨⟨c0, ?_, hw0⟩, Or.inl ?_⟩) ch hch
      · exact List.mem_append_left _ (List.mem_append_right _ hc0)
      · calc (pyStrip (cur ++ s ++ [' '])).length
            = (pyStrip (cur ++ s)).length := by rw [pyStrip_append_space]
          _ ≤ (cur ++ s).length := pyStrip_length_le _
          _ ≤ n := by rw [List.length_append]; omega
    · split at hch
      · refine ih _ _ hrest hchunks (Or.inr ⟨⟨c0, ?_, hw0⟩, Or.inr ?_⟩) ch hch
        · exact List.mem_append_left _ hc0
        · rw [pyStrip_append_space, hfix]; exact hsS
      · next hemp =>
        refine ih _ _ hrest ?_ (Or.inr ⟨⟨c0, ?_, hw0⟩, Or.inr ?_⟩) ch hch
        · intro t ht
          rcases List.mem_append.1 ht with h1 | h1
          · exact hchunks t h1
          · rw [List.mem_singleton] at h1
            subst h1
            rcases hcur with rfl | ⟨⟨c, hc, hw⟩, hgood⟩
            · simp at hemp
            · exact ⟨pyStrip_ne_nil hc hw, hgood⟩
        · exact List.mem_append_left _ hc0
        · rw [pyStrip_append_space, hfix]; exact hsS

/-! ### Error taxonomy (spec section 7 names for the exceptions the source raises) -/

/-- The failure modes of the engine.  `unsupportedFormat` is the
`ValueError` of line 45; `extractionError` the wrapped exceptions of
lines 57/68/76; `embeddingError` the wrapped exception of line 154
(which also covers a ragged response, since `astype` raises inside the
same `try`); `valueError` the empty-document check of line 159;
`numpyOrFaissError` an exception escaping from `numpy`/`faiss` calls
(`embeddings.shape[1]` on an empty batch, `index.add`/`index.search`
with a wrong shape); `indexError` a Python `IndexError` from list
indexing. -/
inductive PyErr where
  | unsupportedFormat
  | extractionError
  | embeddingError
  | valueError
  | numpyOrFaissError
  | indexError
deriving DecidableEq, Repr

/-! ### Embedding client (`RAGBuilder.get_embeddings`, lines 122-154) -/

abbrev Vec := List Int

/-- Whether `np.array(vs).astype('float32')` succeeds as a 2-d array:
all rows must have equal length (a ragged list raises, caught by the
`except` of line 153). -/
def sameDims : List Vec → Bool
  | [] => true
  | v :: rest => rest.all (fun w => w.length = v.length)

/-- Model of `get_embeddings(texts)`: one batched call to the external service
(modelled by the oracle `svc`); any service failure, and a ragged
response, surface as the wrapped exception of line 154. -/
def get_embeddings (svc : List Doc → Except Unit (List Vec)) (texts : List Doc) :
    Except PyErr (List Vec) :=
  match svc texts with
  | .error _ => .error .embeddingError
  | .ok vs => if sameDims vs then .ok vs else .error .embeddingError

/-! ### FAISS flat L2 index -/

/-- A `faiss.IndexFlatL2`: the dimension fixed at construction and the
stored vectors in insertion order (`ntotal = vecs.length`). -/
structure FaissIndex where
  d : Nat
  vecs : List Vec
deriving DecidableEq, Repr

/-- Squared L2 distance, computed exactly over the integer model. -/
def sqDist (u v : Vec) : Int :=
  ((u.zip v).map (fun p => (p.1 - p.2) * (p.1 - p.2))).sum

/-- Stand-in for the `FLT_MAX` distance FAISS reports on padding
entries when `k` exceeds `ntotal` (the exact value is irrelevant to
every property checked here). -/
def FAISS_PAD_DIST : Int := 340282346638528859811704183484516925440

/-- Insert one `(position, distance)` pair into a list sorted by
ascending distance, ties by ascending position. -/
def insertHit (p : Int × Int) : List (Int × Int) → List (Int × Int)
  | [] => [p]
  | q :: rest =>
    if p.2 < q.2 ∨ (p.2 = q.2 ∧ p.1 ≤ q.1) then p :: q :: rest
    else q :: insertHit p rest

def sortHits (l : List (Int × Int)) : List (Int × Int) := l.foldr insertHit []

/-- Model of `index.search(q, k)` on a flat L2 index: the exact `k` nearest
stored vectors as `(position, distance)` pairs in ascending-distance
order; when `k > ntotal`, FAISS pads the output to length `k` with
label `-1`. -/
def faissSearch (ix : FaissIndex) (q : Vec) (k : Nat) : List (Int × Int) :=
  let scored := (List.range ix.vecs.length).zip (ix.vecs.map (sqDist q))
  let sorted := sortHits (scored.map (fun p => ((p.1 : Int), p.2)))
  sorted.take k ++ List.replicate (k - ix.vecs.length) (-1, FAISS_PAD_DIST)

/-- The `index.add(embeddings)` step of `add_document` (lines 185-189),
including index creation when `self.index is None`: a new index takes
its dimension from `embeddings.shape[1]` (raising on an empty batch),
and `faiss` raises on an empty or wrongly-dimensioned batch added to
an existing index. -/
def addVectors : Option FaissIndex → List Vec → Except PyErr FaissIndex
  | none, [] => .error .numpyOrFaissError
  | none, v :: vs => .ok ⟨v.length, v :: vs⟩
  | some ix, vs =>
    if vs.isEmpty then .error .numpyOrFaissError
    else if vs.all (fun v => v.length = ix.d) then .ok ⟨ix.d, ix.vecs ++ vs⟩
    else .error .numpyOrFaissError

/-! ### RAGBuilder state and external dependencies -/

/-- The mutable state of a `RAGBuilder`: `self.index`, `self.documents`,
`self.document_metadata` (lines 22-24). -/
structure RAGState where
  index : Option FaissIndex
  documents : List Doc
  document_metadata : List PyDict
deriving DecidableEq, Repr

/-- The state set up by `__init__`. -/
def initState : RAGState := ⟨none, [], []⟩

/-- External collaborators of the engine, passed as oracles:
`svc` is the embedding HTTP service (one ordered batch in, vectors
out, or a transport/HTTP/parse failure); `readFile` is the combined
file system / PyPDF2 / python-docx text extraction back end for a
supported path (its failures become `extractionError`); `spacy` is the
sentence segmenter, returning the raw sentence texts for a given text;
`now` is the `datetime.now().isoformat()` timestamp. -/
structure Deps where
  svc : List Doc → Except Unit (List Vec)
  readFile : String → Except Unit Doc
  spacy : Doc → List Doc
  now : String

/-- Model of `RAGBuilder.extract_text_from_file` (lines 36-45): dispatch on the
lower-cased file extension; unsupported extensions raise the
`ValueError` of line 45 (`UnsupportedFormat`). -/
def extract_text_from_file (dp : Deps) (path : String) : Except PyErr Doc :=
  if pyEndsWith (lowerL path.toList) ".pdf".toList
      ∨ pyEndsWith (lowerL path.toList) ".docx".toList
      ∨ pyEndsWith (lowerL path.toList) ".txt".toList then
    match dp.readFile path with
    | .ok text => .ok text
    | .error _ => .error .extractionError
  else .error .unsupportedFormat

/-- The per-chunk metadata dict of lines 194-199: the three fixed keys,
then the caller-supplied entries, which override on key collision. -/
def mkMeta (dp : Deps) (path : String) (extra : PyDict) : PyDict :=
  [("file_path", path), ("file_name", basename path), ("added_date", dp.now)] ++ extra

/-- The return dict of `add_document` (lines 201-205). -/
structure AddResult where
  file_path : String
  chunk_count : Nat
  total_chunks : Nat
deriving DecidableEq, Repr

/-- Model of `RAGBuilder.add_document(file_path, metadata)` (lines 173-205).
Written in the statement order of the source; every fallible step
precedes the first mutation of `self`, so each error branch returns
the caller's state unchanged exactly as the Python method does. -/
def add_document (dp : Deps) (st : RAGState) (path : String) (extra : PyDict) :
    RAGState × Except PyErr AddResult :=
  match extract_text_from_file dp path with
  | .error e => (st, .error e)
  | .ok text =>
    let chunks := split_text (dp.spacy text) text 500
    match get_embeddings dp.svc chunks with
    | .error e => (st, .error e)
    | .ok vs =>
      match addVectors st.index vs with
      | .error e => (st, .error e)
      | .ok ix =>
        (⟨some ix,
          st.documents ++ chunks,
          st.document_metadata ++ chunks.map (fun _ => mkMeta dp path extra)⟩,
         .ok ⟨path, chunks.length, st.documents.length + chunks.length⟩)

/-- One per-file outcome record of `add_documents_from_folder`
(lines 219-227): `{..., "status": "success"}` or
`{"file_path": ..., "status": "error", "error": ...}`. -/
inductive RecOutcome where
  | success (chunk_count : Nat) (total_chunks : Nat)
  | failure (e : PyErr)
deriving DecidableEq, Repr

structure FolderRec where
  file_path : String
  outcome : RecOutcome
deriving DecidableEq, Repr

/-- Whether a directory entry matches the extension filter
(line 215): `any(file.lower().endswith(ext) for ext in file_extensions)`.
Note that the file name is lower-cased but the configured extension is
not. -/
def matchesExt (file : String) (exts : List String) : Bool :=
  exts.any (fun e => pyEndsWith (lowerL file.toList) e.toList)

/-- The walk loop of `add_documents_from_folder` (lines 212-228),
processing the `(root, file)` entries `os.walk` yields, in order. -/
def folderLoop (dp : Deps) (exts : List String) :
    RAGState → List (String × String) → RAGState × List FolderRec
  | st, [] => (st, [])
  | st, (root, file) :: rest =>
    if matchesExt file exts then
      match add_document dp st (pathJoin root file) [] with
      | (st', .ok r) =>
        let next := folderLoop dp exts st' rest
        (next.1, ⟨pathJoin root file, .success r.chunk_count r.total_chunks⟩ :: next.2)
      | (st', .error e) =>
        let next := folderLoop dp exts st' rest
        (next.1, ⟨pathJoin root file, .failure e⟩ :: next.2)
    else folderLoop dp exts st rest

/-- Model of `RAGBuilder.add_documents_from_folder(folder_path, file_extensions)`
(lines 207-230).  The recursive directory walk is the external input
`walk`; a `file_extensions` of `None` defaults to
`['.pdf', '.docx', '.txt']` (lines 209-210). -/
def add_documents_from_folder (dp : Deps) (st : RAGState)
    (walk : List (String × String)) (exts : Option (List String)) :
    RAGState × List FolderRec :=
  folderLoop dp (exts.getD [".pdf", ".docx", ".txt"]) st walk

/-! ### Search (`RAGBuilder.search`, lines 232-253) -/

/-- One search result dict (lines 247-251). -/
structure SearchHit where
  document : Doc
  metadata : PyDict
  score : Int
deriving DecidableEq, Repr

/-- Python list indexing, with negative indices counting from the end;
`none` models an `IndexError`. -/
def pyGet? (l : List α) (i : Int) : Option α :=
  if 0 ≤ i then l.get? i.toNat
  else if 0 ≤ (l.length : Int) + i then l.get? ((l.length : Int) + i).toNat
  else none

/-- The result-building loop of lines 244-251: keep the pairs whose
position satisfies `idx < len(self.documents)` and look the position up
in both parallel lists; `none` models a raised `IndexError`. -/
def buildHits (docs : List Doc) (metas : List PyDict) :
    List (Int × Int) → Option (List SearchHit)
  | [] => some []
  | (idx, dist) :: rest =>
    if idx < (docs.length : Int) then
      match pyGet? docs idx, pyGet? metas idx with
      | some d, some m => (buildHits docs metas rest).map (⟨d, m, dist⟩ :: ·)
      | _, _ => none
    else buildHits docs metas rest

/-- Model of `RAGBuilder.search(query, k)` (lines 232-253). -/
def search (svc : List Doc → Except Unit (List Vec)) (st : RAGState)
    (query : Doc) (k : Nat) : Except PyErr (List SearchHit) :=
  match st.index with
  | none => .ok []
  | some ix =>
    if st.documents.isEmpty then .ok []
    else
      match get_embeddings svc [query] with
      | .error e => .error e
      | .ok [] => .error .numpyOrFaissError
      | .ok (q :: _) =>
        if q.length = ix.d then
          match buildHits st.documents st.document_metadata (faissSearch ix q k) with
          | some hits => .ok hits
          | none => .error .indexError
        else .error .numpyOrFaissError

/-! ### Persistence (`save_index` lines 255-281, `load_index` lines 283-298) -/

/-- What reading back the JSON sidecar can observe: the file may be
missing/unparsable, or parse to a dict in which each of the two keys
`load_index` reads may be present or absent.  (`save_index` also writes
`saved_date` and `embedding_model`, but `load_index` never reads them.) -/
inductive SidecarRead where
  | unreadable
  | parsed (documents : Option (List Doc)) (metadata : Option (List PyDict))
deriving DecidableEq, Repr

/-- The pair of sibling artifacts a save produces. -/
structure Artifacts where
  blob : FaissIndex
  sidecar : SidecarRead
deriving DecidableEq, Repr

/-- Model of `RAGBuilder.save_index(file_path)` (lines 255-281): returns `False`
with no state change when `self.index is None`; otherwise writes the
two artifacts (`diskOk` models whether the directory creation and the
two writes succeed; on failure the exception is caught and `False`
returned).  The method never assigns to `self`, so the state component
of the result is the input state. -/
def save_index (st : RAGState) (diskOk : Bool) : RAGState × Bool × Option Artifacts :=
  match st.index with
  | none => (st, false, none)
  | some ix =>
    if diskOk then
      (st, true, some ⟨ix, .parsed (some st.documents) (some st.document_metadata)⟩)
    else (st, false, none)

/-- Model of `RAGBuilder.load_index(file_path)` (lines 283-298), in statement
order: `self.index` is assigned as soon as the binary blob parses
(line 287), `self.documents` as soon as the sidecar parses with a
`documents` key (line 292), `self.document_metadata` last (line 293);
any failure is caught and reported as `False`, leaving whatever was
already assigned in place.  `blob = none` models a missing/corrupt
binary blob (then `faiss.read_index` raises before the assignment). -/
def load_index (st : RAGState) (blob : Option FaissIndex) (sc : SidecarRead) :
    RAGState × Bool :=
  match blob with
  | none => (st, false)
  | some ix =>
    match sc with
    | .unreadable => ({ st with index := some ix }, false)
    | .parsed none _ => ({ st with index := some ix }, false)
    | .parsed (some ds) none => (⟨some ix, ds, st.document_metadata⟩, false)
    | .parsed (some ds) (some ms) => (⟨some ix, ds, ms⟩, true)

/-! ### Status and clear (`get_index_status` lines 300-324, `clear_index` lines 326-331) -/

/-- The per-file chunk counters of lines 310-316, an insertion-ordered
dict keyed by each metadata entry's `file_path` (default `"未知"`). -/
def bumpStat : List (String × Nat) → String → List (String × Nat)
  | [], k => [(k, 1)]
  | (k', c) :: rest, k =>
    if k = k' then (k', c + 1) :: rest else (k', c) :: bumpStat rest k

def fileStats (metas : List PyDict) : List (String × Nat) :=
  metas.foldl (fun acc m => bumpStat acc ((dictGet m "file_path").getD "未知")) []

/-- The status dict of `get_index_status`; `file_stats` is absent
(`none`) in the uninitialized shape (lines 303-308). -/
structure IndexStatus where
  status : String
  document_count : Nat
  file_count : Nat
  dimension : Nat
  file_stats : Option (List (String × Nat))
deriving DecidableEq, Repr

/-- Model of `RAGBuilder.get_index_status()` (lines 300-324).  (`"未初始化"` is
the source's literal for "uninitialized", `"已初始化"` for
"initialized"; a `faiss` index always has the attribute `d`, so the
`hasattr` guard of line 322 reads the dimension.) -/
def get_index_status (st : RAGState) : IndexStatus :=
  match st.index with
  | none => ⟨"未初始化", 0, 0, 0, none⟩
  | some ix =>
    let stats := fileStats st.document_metadata
    ⟨"已初始化", st.documents.length, stats.length, ix.d, some stats⟩

/-- Model of `RAGBuilder.clear_index()` (lines 326-331). -/
def clear_index (_st : RAGState) : RAGState × Bool := (⟨none, [], []⟩, true)

/-- Line 171: `metadata if metadata else [{} for _ in documents]` —
Python truthiness treats both `None` and an empty list as falsy. -/
def defaultMetas (documents : List Doc) : Option (List PyDict) → List PyDict
  | some ms => if ms.isEmpty then documents.map (fun _ => ([] : PyDict)) else ms
  | none => documents.map (fun _ => ([] : PyDict))

/-- Model of `RAGBuilder.build_index(documents, metadata)` (lines 156-171):
raises `ValueError` on an empty document list, embeds the batch,
replaces the index with a freshly created one, and stores the
caller-supplied metadata list verbatim when truthy, else one empty
dict per document. -/
def build_index (dp : Deps) (st : RAGState) (documents : List Doc)
    (metadata : Option (List PyDict)) : RAGState × Except PyErr Unit :=
  if documents.isEmpty then (st, .error .valueError)
  else
    match get_embeddings dp.svc documents with
    | .error e => (st, .error e)
    | .ok vs =>
      match vs with
      | [] => (st, .error .numpyOrFaissError)
      | v :: rest =>
        (⟨some ⟨v.length, v :: rest⟩, documents, defaultMetas documents metadata⟩, .ok ())

/-- Model of `RAGBuilder.is_index_loaded()` (lines 333-335). -/
def is_index_loaded (st : RAGState) : Bool :=
  st.index.isSome && !st.documents.isEmpty

/-! ### Derived notions used by the claims -/

/-- The number of vectors held by an optional vector index (`ntotal`),
`0` when `self.index is None`. -/
def optVecCount : Option FaissIndex → Nat
  | none => 0
  | some ix => ix.vecs.length

/-- The number of vectors held by the vector index of a state. -/
def vecCount (st : RAGState) : Nat := optVecCount st.index

/-- The positional-alignment invariant of spec section 8:
`len(documents) == len(metadata) == vectorIndex.count`. -/
def Aligned (st : RAGState) : Prop :=
  st.documents.length = st.document_metadata.length ∧
  st.documents.length = vecCount st

/-! ### Split-text facts for claim C5 -/

theorem split_text_eq_primary {spacyRaw : List Doc} {text : Doc} {n : Nat}
    (h : packChunks n (cleanSents spacyRaw) [] [] ≠ []) :
    split_text spacyRaw text n = packChunks n (cleanSents spacyRaw) [] [] := by
  simp [split_text, List.isEmpty_iff, h]

theorem split_text_eq_fallback {spacyRaw : List Doc} {text : Doc} {n : Nat}
    (h : packChunks n (cleanSents spacyRaw) [] [] = []) :
    split_text spacyRaw text n = packChunks n (regexSentences text) [] [] := by
  simp [split_text, List.isEmpty_iff, h]

theorem cleanSents_eq_nil_of_pack_nil {raw : List Doc} {n : Nat}
    (h : packChunks n (cleanSents raw) [] [] = []) : cleanSents raw = [] := by
  cases hcs : cleanSents raw with
  | nil => rfl
  | cons s r =>
    exfalso
    rw [hcs] at h
    exact packChunks_ne_nil n s r [] [] h

/-- C5: for every input text and every `max_chars`, each chunk produced
by `split_text` is non-empty after trimming, and is either within the
size bound `max_chars` outright or is a single whole sentence kept
verbatim (hence never split further, and trivially within
`max_chars` plus that one sentence's length); moreover every sentence
longer than `max_chars` — from the spacy segmentation, or from the
regex fallback when the segmentation yields nothing — appears as its
own oversized chunk. -/
theorem C5_chunk_bounds (spacyRaw : List Doc) (text : Doc) (maxChars : Nat) :
    (∀ ch ∈ split_text spacyRaw text maxChars,
        ch ≠ [] ∧ (ch.length ≤ maxChars ∨ ch ∈ cleanSents spacyRaw ∨ ch ∈ regexSentences text))
    ∧ (∀ s ∈ cleanSents spacyRaw, maxChars < s.length →
        s ∈ split_text spacyRaw text maxChars)
    ∧ (cleanSents spacyRaw = [] → ∀ s ∈ regexSentences text, maxChars < s.length →
        s ∈ split_text spacyRaw text maxChars) := by
  by_cases hE : packChunks maxChars (cleanSents spacyRaw) [] [] = []
  · have hclean := cleanSents_eq_nil_of_pack_nil hE
    rw [split_text_eq_fallback hE]
    refine ⟨?_, ?_, ?_⟩
    · intro ch hch
      have hgood := packChunks_good maxChars (regexSentences text)
        (fun s hs => pyStrip_fixed_of_mem_clean hs) (regexSentences text) [] []
        (fun s hs => hs) (by simp) (Or.inl rfl) ch hch
      exact ⟨hgood.1, hgood.2.elim Or.inl (fun h => Or.inr (Or.inr h))⟩
    · intro s hs
      rw [hclean] at hs
      cases hs
    · intro _ s hs hlen
      exact packChunks_oversized maxChars s (pyStrip_fixed_of_mem_clean hs).1 hlen _ [] [] hs
  · rw [split_text_eq_primary hE]
    refine ⟨?_, ?_, ?_⟩
    · intro ch hch
      have hgood := packChunks_good maxChars (cleanSents spacyRaw)
        (fun s hs => pyStrip_fixed_of_mem_clean hs) (cleanSents spacyRaw) [] []
        (fun s hs => hs) (by simp) (Or.inl rfl) ch hch
      exact ⟨hgood.1, hgood.2.elim Or.inl (fun h => Or.inr (Or.inl h))⟩
    · intro s hs hlen
      exact packChunks_oversized maxChars s (pyStrip_fixed_of_mem_clean hs).1 hlen _ [] [] hs
    · intro hclean s hs hlen
      exfalso
      apply hE
      rw [hclean]
      rfl

/-- Witness for C5 at a concrete input: with `max_chars = 3`, the
four-character sentence `"第一句。"` is kept whole as its own oversized
chunk. -/
theorem C5_chunk_bounds_witness :
    ['第', '一', '句', '。'] ∈ split_text [[' ', '第', '一', '句', '。', ' ']] ['a'] 3 :=
  (C5_chunk_bounds [[' ', '第', '一', '句', '。', ' ']] ['a'] 3).2.1
    ['第', '一', '句', '。'] (by decide) (by decide)

/-! ### add_document facts (claims C4, C6, C7) -/

theorem add_document_error_eq (dp : Deps) (st : RAGState) (path : String)
    (extra : PyDict) (st' : RAGState) (e : PyErr)
    (h : add_document dp st path extra = (st', .error e)) : st' = st := by
  simp only [add_document] at h
  split at h
  · injection h with h1 h2
    exact h1.symm
  · split at h
    · injection h with h1 h2
      exact h1.symm
    · split at h
      · injection h with h1 h2
        exact h1.symm
      · injection h with h1 h2
        exact Except.noConfusion h2

theorem add_document_ok_shape (dp : Deps) (st : RAGState) (path : String)
    (extra : PyDict) (st' : RAGState) (r : AddResult)
    (h : add_document dp st path extra = (st', .ok r)) :
    ∃ text vs ix,
      extract_text_from_file dp path = .ok text ∧
      get_embeddings dp.svc (split_text (dp.spacy text) text 500) = .ok vs ∧
      addVectors st.index vs = .ok ix ∧
      st' = ⟨some ix,
        st.documents ++ split_text (dp.spacy text) text 500,
        st.document_metadata ++
          (split_text (dp.spacy text) text 500).map (fun _ => mkMeta dp path extra)⟩ ∧
      r = ⟨path, (split_text (dp.spacy text) text 500).length,
        st.documents.length + (split_text (dp.spacy text) text 500).length⟩ := by
  simp only [add_document] at h
  split at h
  · injection h with h1 h2
    exact Except.noConfusion h2
  · next text heq =>
    split at h
    · injection h with h1 h2
      exact Except.noConfusion h2
    · next vs heq2 =>
      split at h
      · injection h with h1 h2
        exact Except.noConfusion h2
      · next ix heq3 =>
        injection h with h1 h2
        injection h2 with h3
        exact ⟨text, vs, ix, heq, heq2, heq3, h1.symm, h3.symm⟩

theorem get_embeddings_ok (svc : List Doc → Except Unit (List Vec)) (ts : List Doc)
    (vs : List Vec) (h : get_embeddings svc ts = .ok vs) : svc ts = .ok vs := by
  unfold get_embeddings at h
  split at h
  · exact Except.noConfusion h
  · next vs' heq =>
    split at h
    · injection h with h1
      rw [heq, h1]
    · exact Except.noConfusion h

theorem addVectors_count (oix : Option FaissIndex) (vs : List Vec) (ix : FaissIndex)
    (h : addVectors oix vs = .ok ix) :
    ix.vecs.length = optVecCount oix + vs.length := by
  cases oix with
  | none =>
    cases vs with
    | nil => simp [addVectors] at h
    | cons v rest =>
      simp only [addVectors] at h
      injection h with h1
      rw [← h1]
      simp [optVecCount]
  | some i =>
    simp only [addVectors] at h
    split at h
    · exact Except.noConfusion h
    · split at h
      · injection h with h1
        rw [← h1]
        simp [optVecCount]
      · exact Except.noConfusion h

/-- C4: for every prior index state, a failing `add_document` — an
unsupported format, an extraction failure, or an embedding-service
failure (and in fact any of the modelled failures) — leaves the state
exactly as it was; on success the file's chunks, their metadata
entries, and an equal number of vectors are all committed together. -/
theorem C4_add_document_atomic (dp : Deps) (st : RAGState) (path : String) (extra : PyDict)
    (hembed : ∀ ts vs, dp.svc ts = .ok vs → vs.length = ts.length) :
    (∀ st' e, add_document dp st path extra = (st', .error e) → st' = st)
    ∧ (∀ st' r, add_document dp st path extra = (st', .ok r) →
        ∃ chunks : List Doc,
          st'.documents = st.documents ++ chunks ∧
          st'.document_metadata =
            st.document_metadata ++ chunks.map (fun _ => mkMeta dp path extra) ∧
          vecCount st' = vecCount st + chunks.length ∧
          r.chunk_count = chunks.length ∧
          r.total_chunks = st.documents.length + chunks.length) := by
  refine ⟨fun st' e h => add_document_error_eq dp st path extra st' e h, ?_⟩
  intro st' r h
  obtain ⟨text, vs, ix, _, hg, ha, hst, hr⟩ := add_document_ok_shape dp st path extra st' r h
  refine ⟨split_text (dp.spacy text) text 500, ?_, ?_, ?_, ?_, ?_⟩
  · rw [hst]
  · rw [hst]
  · have hlen := hembed _ _ (get_embeddings_ok dp.svc _ vs hg)
    have hcnt := addVectors_count st.index vs ix ha
    rw [hst]
    show ix.vecs.length = vecCount st + (split_text (dp.spacy text) text 500).length
    rw [← hlen]
    exact hcnt
  · rw [hr]
  · rw [hr]

/-! ### Concrete oracles and states used by witnesses and counterexamples -/

/-- A deterministic embedding service honouring the batch contract:
one 1-dimensional zero vector per input text. -/
def svcZero : List Doc → Except Unit (List Vec) := fun ts => .ok (ts.map (fun _ => [0]))

theorem svcZero_len (ts : List Doc) (vs : List Vec) (h : svcZero ts = .ok vs) :
    vs.length = ts.length := by
  simp only [svcZero, Except.ok.injEq] at h
  rw [← h]
  simp

/-- Concrete dependencies: every supported file reads as
`"hello。world。"`, the segmenter returns the whole text as one
sentence. -/
def dpT : Deps := ⟨svcZero, fun _ => .ok ("hello。world。".toList), fun t => [t], "T"⟩

/-- A small initialized, aligned state with one stored chunk. -/
def stOne : RAGState := ⟨some ⟨1, [[0]]⟩, [['a']], [[("file_path", "f")]]⟩

/-- Witness for C4 at a concrete input: ingesting `"a.txt"` into the
empty state commits chunks, metadata, and vectors together. -/
theorem C4_add_document_atomic_witness :
    ∃ chunks : List Doc,
      (add_document dpT initState "a.txt" []).1.documents = initState.documents ++ chunks ∧
      (add_document dpT initState "a.txt" []).1.document_metadata =
        initState.document_metadata ++ chunks.map (fun _ => mkMeta dpT "a.txt" []) ∧
      vecCount (add_document dpT initState "a.txt" []).1 = vecCount initState + chunks.length ∧
      (AddResult.mk "a.txt" 1 1).chunk_count = chunks.length ∧
      (AddResult.mk "a.txt" 1 1).total_chunks = initState.documents.length + chunks.length :=
  (C4_add_document_atomic dpT initState "a.txt" [] svcZero_len).2
    (add_document dpT initState "a.txt" []).1 ⟨"a.txt", 1, 1⟩ rfl

/-! ### Claims C9 and C10 -/

/-- C9: `clear_index` returns `True` and resets the state so that
`get_index_status` reports the uninitialized status (the source
literal `"未初始化"`) with `document_count`, `file_count` and
`dimension` all `0`, and clearing again yields the same result,
regardless of the prior state. -/
theorem C9_clear_idempotent (st : RAGState) :
    (clear_index st).2 = true
    ∧ get_index_status (clear_index st).1 = ⟨"未初始化", 0, 0, 0, none⟩
    ∧ clear_index (clear_index st).1 = clear_index st :=
  ⟨rfl, rfl, rfl⟩

theorem build_index_ok_parts (dp : Deps) (st : RAGState) (documents : List Doc)
    (metadata : Option (List PyDict))
    (h : (build_index dp st documents metadata).2 = .ok ()) :
    (build_index dp st documents metadata).1.documents = documents ∧
    (build_index dp st documents metadata).1.document_metadata
      = defaultMetas documents metadata := by
  unfold build_index at h ⊢
  split at h
  · simp at h
  · next hne =>
    rw [if_neg hne]
    split at h
    · simp at h
    · next vs heq =>
      cases vs with
      | nil => simp at h
      | cons v rest => exact ⟨rfl, rfl⟩

/-- C10: `build_index` stores a non-empty caller-supplied metadata
list verbatim — with no check that its length matches the documents
list — and stores one empty dict per document when the metadata
argument is `None` or the empty list. -/
theorem C10_build_index_metadata_verbatim (dp : Deps) (st : RAGState)
    (documents : List Doc) (ms : List PyDict) (hms : ms ≠ []) :
    ((build_index dp st documents (some ms)).2 = .ok () →
      (build_index dp st documents (some ms)).1.document_metadata = ms ∧
      (build_index dp st documents (some ms)).1.documents = documents)
    ∧ (∀ md : Option (List PyDict), md = none ∨ md = some [] →
        (build_index dp st documents md).2 = .ok () →
        (build_index dp st documents md).1.document_metadata
          = documents.map (fun _ => ([] : PyDict))) := by
  constructor
  · intro h
    have hp := build_index_ok_parts dp st documents (some ms) h
    refine ⟨?_, hp.1⟩
    rw [hp.2]
    simp [defaultMetas, List.isEmpty_iff, hms]
  · rintro md (rfl | rfl) h
    · rw [(build_index_ok_parts dp st documents none h).2]
      simp [defaultMetas]
    · rw [(build_index_ok_parts dp st documents (some []) h).2]
      simp [defaultMetas]

/-- Witness for C10 at a concrete input: two documents with a
one-entry metadata list — the mismatched list is accepted and stored
as-is. -/
theorem C10_build_index_metadata_verbatim_witness :
    (build_index dpT initState [['a'], ['b']] (some [[("k", "v")]])).2 = .ok ()
    ∧ (build_index dpT initState [['a'], ['b']]
        (some [[("k", "v")]])).1.document_metadata = [[("k", "v")]] :=
  ⟨rfl, ((C10_build_index_metadata_verbatim dpT initState [['a'], ['b']]
    [[("k", "v")]] (by decide)).1 rfl).1⟩

/-! ### Claims C2, C3, C8 (persistence) -/

/-- Counterexample to C2 as stated: a binary blob holding two vectors
next to a sidecar holding one document is loaded successfully —
`load_index` returns `True` and leaves the vector count (2) unequal to
the document count (1). -/
theorem C2_counterexample :
    (load_index initState (some ⟨1, [[0], [0]]⟩) (.parsed (some [['a']]) (some [[]]))).2 = true
    ∧ vecCount (load_index initState (some ⟨1, [[0], [0]]⟩)
        (.parsed (some [['a']]) (some [[]]))).1 = 2
    ∧ (load_index initState (some ⟨1, [[0], [0]]⟩)
        (.parsed (some [['a']]) (some [[]]))).1.documents.length = 1 :=
  ⟨rfl, rfl, rfl⟩

/-- C2 (amended): `load_index` performs no consistency check at all —
whenever the binary blob parses and the sidecar parses with both keys,
it succeeds and installs the loaded values verbatim, whatever their
cardinalities. -/
theorem C2_load_no_consistency_check (st : RAGState) (ix : FaissIndex)
    (ds : List Doc) (ms : List PyDict) :
    load_index st (some ix) (.parsed (some ds) (some ms)) = (⟨some ix, ds, ms⟩, true) :=
  rfl

/-- Counterexample to C3 as stated: starting from `stOne`, a load whose
binary blob parses but whose sidecar is unreadable reports failure yet
has already replaced the in-memory index — the state after the failed
call differs from the state before it. -/
theorem C3_counterexample :
    (load_index stOne (some ⟨2, [[1, 2], [3, 4]]⟩) .unreadable).2 = false
    ∧ (load_index stOne (some ⟨2, [[1, 2], [3, 4]]⟩) .unreadable).1 ≠ stOne :=
  ⟨rfl, by decide⟩

/-- C3 (amended): `save_index` never mutates the in-memory state, and a
`load_index` whose binary blob fails to parse leaves the state
unchanged; but a `load_index` that fails after the blob parses has
already installed the new index (and, when the sidecar parses with a
`documents` key but no `metadata` key, also the new documents),
leaving a partially mutated state behind the `False` result. -/
theorem C3_persistence_partial_atomicity :
    (∀ (st : RAGState) (d : Bool), (save_index st d).1 = st)
    ∧ (∀ (st : RAGState) (sc : SidecarRead), load_index st none sc = (st, false))
    ∧ (∀ (st : RAGState) (ix : FaissIndex),
        load_index st (some ix) .unreadable = ({ st with index := some ix }, false))
    ∧ (∀ (st : RAGState) (ix : FaissIndex) (ms : Option (List PyDict)),
        load_index st (some ix) (.parsed none ms) = ({ st with index := some ix }, false))
    ∧ (∀ (st : RAGState) (ix : FaissIndex) (ds : List Doc),
        load_index st (some ix) (.parsed (some ds) none)
          = (⟨some ix, ds, st.document_metadata⟩, false)) := by
  refine ⟨?_, fun st sc => rfl, fun st ix => rfl, fun st ix ms => rfl, fun st ix ds => rfl⟩
  intro st d
  obtain ⟨oix, docs, metas⟩ := st
  cases oix with
  | none => rfl
  | some ix => cases d <;> rfl

/-- C8: for every state whose index is present, a successful save
produces artifacts from which `load_index` — started from any
in-memory state — rebuilds exactly the original state, hence the same
`document_count`, `file_count`, ordered chunk texts, and metadata. -/
theorem C8_roundtrip (st : RAGState) (ix : FaissIndex) (h : st.index = some ix) :
    ∃ arts : Artifacts,
      save_index st true = (st, true, some arts)
      ∧ ∀ st2 : RAGState, load_index st2 (some arts.blob) arts.sidecar = (st, true) := by
  refine ⟨⟨ix, .parsed (some st.documents) (some st.document_metadata)⟩, ?_, ?_⟩
  · unfold save_index
    rw [h]
    rfl
  · intro st2
    have hstep : load_index st2 (some ix)
        (.parsed (some st.documents) (some st.document_metadata))
        = (⟨some ix, st.documents, st.document_metadata⟩, true) := rfl
    rw [hstep, ← h]

/-- Witness for C8 at the concrete one-chunk state `stOne`. -/
theorem C8_roundtrip_witness :
    ∃ arts : Artifacts,
      save_index stOne true = (stOne, true, some arts)
      ∧ ∀ st2 : RAGState, load_index st2 (some arts.blob) arts.sidecar = (stOne, true) :=
  C8_roundtrip stOne ⟨1, [[0]]⟩ rfl

/-! ### Claim C6 (alignment invariant) -/

theorem add_document_preserves_aligned (dp : Deps)
    (hembed : ∀ ts vs, dp.svc ts = .ok vs → vs.length = ts.length)
    (st : RAGState) (path : String) (extra : PyDict) (hA : Aligned st) :
    Aligned (add_document dp st path extra).1 := by
  rcases hres : add_document dp st path extra with ⟨st', r⟩
  cases r with
  | error e =>
    rw [add_document_error_eq dp st path extra st' e hres]
    exact hA
  | ok r =>
    obtain ⟨text, vs, ix, _, hg, ha, hst, _⟩ :=
      add_document_ok_shape dp st path extra st' r hres
    have hlen := hembed _ _ (get_embeddings_ok dp.svc _ vs hg)
    have hcnt := addVectors_count st.index vs ix ha
    obtain ⟨h1, h2⟩ := hA
    rw [hst]
    constructor
    · simp only [List.length_append, List.length_map]
      omega
    · show (st.documents ++ split_text (dp.spacy text) text 500).length = ix.vecs.length
      rw [List.length_append, hcnt, hlen]
      have h2' : st.documents.length = optVecCount st.index := h2
      omega

theorem folderLoop_preserves_aligned (dp : Deps)
    (hembed : ∀ ts vs, dp.svc ts = .ok vs → vs.length = ts.length)
    (exts : List String) (walk : List (String × String)) :
    ∀ st : RAGState, Aligned st → Aligned (folderLoop dp exts st walk).1 := by
  induction walk with
  | nil => intro st hA; exact hA
  | cons rf rest ih =>
    intro st hA
    obtain ⟨root, file⟩ := rf
    unfold folderLoop
    split
    · rcases hres : add_document dp st (pathJoin root file) [] with ⟨st', r⟩
      have hA' : Aligned st' := by
        have hp := add_document_preserves_aligned dp hembed st (pathJoin root file) [] hA
        rwa [hres] at hp
      cases r with
      | ok r =>
        show Aligned (folderLoop dp exts st' rest).1
        exact ih st' hA'
      | error e =>
        show Aligned (folderLoop dp exts st' rest).1
        exact ih st' hA'
    · exact ih st hA

/-- Counterexample to C6 as stated: from the (aligned) initial state,
the public operation `load_index` applied to a mismatched artifact
pair produces a reachable state violating the alignment invariant. -/
theorem C6_counterexample :
    Aligned initState
    ∧ ¬ Aligned (load_index initState (some ⟨1, [[0], [0]]⟩)
        (.parsed (some [['a']]) (some [[]]))).1 :=
  ⟨⟨rfl, rfl⟩, fun h => absurd h.2 (by decide)⟩

/-- C6 (amended): the alignment invariant holds initially and is
preserved by `add_document` and `add_documents_from_folder` (given the
embedding service's one-vector-per-text contract), by `clear_index`,
and by `save_index` (which never mutates the state); `search` and
`get_index_status` are read-only.  `load_index` is the exception: it
can install a state with vector count unequal to document count (see
the counterexample). -/
theorem C6_alignment (dp : Deps)
    (hembed : ∀ ts vs, dp.svc ts = .ok vs → vs.length = ts.length) :
    Aligned initState
    ∧ (∀ (st : RAGState) (path : String) (extra : PyDict),
        Aligned st → Aligned (add_document dp st path extra).1)
    ∧ (∀ (st : RAGState) (walk : List (String × String)) (exts : Option (List String)),
        Aligned st → Aligned (add_documents_from_folder dp st walk exts).1)
    ∧ (∀ st : RAGState, Aligned (clear_index st).1)
    ∧ (∀ (st : RAGState) (d : Bool), (save_index st d).1 = st) := by
  refine ⟨⟨rfl, rfl⟩,
    fun st path extra hA => add_document_preserves_aligned dp hembed st path extra hA,
    fun st walk exts hA => folderLoop_preserves_aligned dp hembed _ walk st hA,
    fun st => ⟨rfl, rfl⟩, ?_⟩
  intro st d
  obtain ⟨oix, docs, metas⟩ := st
  cases oix with
  | none => rfl
  | some ix => cases d <;> rfl

/-- Witness for C6 at a concrete input: ingesting a file into the
aligned one-chunk state keeps the invariant. -/
theorem C6_alignment_witness : Aligned (add_document dpT stOne "b.txt" []).1 :=
  (C6_alignment dpT svcZero_len).2.1 stOne "b.txt" [] ⟨rfl, rfl⟩

/-! ### Claim C1 (search with k larger than the corpus) -/

/-- C1 (the code evaluated at the failing input): on an index holding a
single chunk, `search(query, 5)` returns five results, not one — the
real hit followed by four FAISS padding entries.  Their position `-1`
passes the filter `idx < len(self.documents)` of line 246, and
Python's negative indexing then resolves them to the last stored
document, so padding entries surface as results with the sentinel
distance. -/
theorem C1_search_padding_leak :
    search svcZero stOne ['q'] 5
      = .ok [⟨['a'], [("file_path", "f")], 0⟩,
             ⟨['a'], [("file_path", "f")], FAISS_PAD_DIST⟩,
             ⟨['a'], [("file_path", "f")], FAISS_PAD_DIST⟩,
             ⟨['a'], [("file_path", "f")], FAISS_PAD_DIST⟩,
             ⟨['a'], [("file_path", "f")], FAISS_PAD_DIST⟩]
    ∧ (get_index_status stOne).document_count = 1 :=
  ⟨rfl, rfl⟩

/-! ### Claim C7 (folder ingestion) -/

/-- Reference description of folder ingestion, following the claim's
words: process exactly the given (already filtered) matching file
paths in order, turning each per-file success or failure into a record
and always continuing to the next file. -/
def processMatching (dp : Deps) : RAGState → List String → RAGState × List FolderRec
  | st, [] => (st, [])
  | st, p :: rest =>
    match add_document dp st p [] with
    | (st', .ok r) =>
      let next := processMatching dp st' rest
      (next.1, ⟨p, .success r.chunk_count r.total_chunks⟩ :: next.2)
    | (st', .error e) =>
      let next := processMatching dp st' rest
      (next.1, ⟨p, .failure e⟩ :: next.2)

theorem processMatching_length (dp : Deps) (ps : List String) :
    ∀ st : RAGState, (processMatching dp st ps).2.length = ps.length := by
  induction ps with
  | nil => intro st; rfl
  | cons p rest ih =>
    intro st
    unfold processMatching
    rcases hres : add_document dp st p [] with ⟨st', r⟩
    cases r with
    | ok r =>
      show ((processMatching dp st' rest).1,
        (⟨p, .success r.chunk_count r.total_chunks⟩ : FolderRec)
          :: (processMatching dp st' rest).2).2.length = (p :: rest).length
      simp [ih st']
    | error e =>
      show ((processMatching dp st' rest).1,
        (⟨p, .failure e⟩ : FolderRec) :: (processMatching dp st' rest).2).2.length
        = (p :: rest).length
      simp [ih st']

theorem matchesExt_ci (file : String) : ∀ exts : List String,
    (∀ e ∈ exts, lowerL e.toList = e.toList) →
    matchesExt file exts
      = exts.any (fun e => pyEndsWith (lowerL file.toList) (lowerL e.toList)) := by
  intro exts
  induction exts with
  | nil => intro _; rfl
  | cons e r ihe =>
    intro hexts
    have hrest := ihe (fun x hx => hexts x (List.mem_cons_of_mem _ hx))
    simp only [matchesExt, List.any_cons] at hrest ⊢
    rw [hexts e (List.mem_cons_self _ _), hrest]

theorem folderLoop_eq_processMatching (dp : Deps) (exts : List String)
    (walk : List (String × String)) :
    ∀ st : RAGState,
      folderLoop dp exts st walk
        = processMatching dp st
            ((walk.filter (fun rf => matchesExt rf.2 exts)).map
              (fun rf => pathJoin rf.1 rf.2)) := by
  induction walk with
  | nil => intro st; rfl
  | cons rf rest ih =>
    intro st
    obtain ⟨root, file⟩ := rf
    by_cases hm : matchesExt file exts
    · unfold folderLoop
      rw [if_pos hm]
      rw [show ((root, file) :: rest).filter (fun rf => matchesExt rf.2 exts)
            = (root, file) :: rest.filter (fun rf => matchesExt rf.2 exts) from by
          simp [List.filter_cons, hm]]
      rw [List.map_cons]
      unfold processMatching
      rcases hres : add_document dp st (pathJoin root file) [] with ⟨st', r⟩
      cases r with
      | ok r =>
        show ((folderLoop dp exts st' rest).1,
            (⟨pathJoin root file, .success r.chunk_count r.total_chunks⟩ : FolderRec)
              :: (folderLoop dp exts st' rest).2)
          = ((processMatching dp st' _).1,
            (⟨pathJoin root file, .success r.chunk_count r.total_chunks⟩ : FolderRec)
              :: (processMatching dp st' _).2)
        rw [ih st']
      | error e =>
        show ((folderLoop dp exts st' rest).1,
            (⟨pathJoin root file, .failure e⟩ : FolderRec)
              :: (folderLoop dp exts st' rest).2)
          = ((processMatching dp st' _).1,
            (⟨pathJoin root file, .failure e⟩ : FolderRec)
              :: (processMatching dp st' _).2)
        rw [ih st']
    · unfold folderLoop
      rw [if_neg hm]
      rw [show ((root, file) :: rest).filter (fun rf => matchesExt rf.2 exts)
            = rest.filter (fun rf => matchesExt rf.2 exts) from by
          simp [List.filter_cons, hm]]
      exact ih st

/-- C7: folder ingestion visits the walk in order and is equivalent to
processing exactly the matching files: each matching file contributes
exactly one record (success, or an error record on a per-file failure,
the walk never aborting early), non-matching files contribute nothing,
and — for extension lists that are already lower-case, such as the
default `['.pdf', '.docx', '.txt']` — a file matches exactly when its
name ends case-insensitively with one of the configured extensions. -/
theorem C7_folder_report (dp : Deps) (st : RAGState)
    (walk : List (String × String)) (exts : List String)
    (hexts : ∀ e ∈ exts, lowerL e.toList = e.toList) :
    add_documents_from_folder dp st walk (some exts)
      = processMatching dp st
          ((walk.filter (fun rf => matchesExt rf.2 exts)).map
            (fun rf => pathJoin rf.1 rf.2))
    ∧ (add_documents_from_folder dp st walk (some exts)).2.length
        = (walk.filter (fun rf => matchesExt rf.2 exts)).length
    ∧ ∀ file : String, matchesExt file exts
        = exts.any (fun e => pyEndsWith (lowerL file.toList) (lowerL e.toList)) := by
  have h1 := folderLoop_eq_processMatching dp exts walk st
  refine ⟨h1, ?_, ?_⟩
  · show (folderLoop dp exts st walk).2.length = _
    rw [h1, processMatching_length]
    rw [List.length_map]
  · intro file
    exact matchesExt_ci file exts hexts

/-- Concrete dependencies for the C7 witness: extraction fails for the
path `"r/c.txt"` and succeeds elsewhere. -/
def dpMix : Deps :=
  ⟨svcZero, fun p => if p == "r/c.txt" then .error () else .ok ("hello。".toList),
   fun t => [t], "T"⟩

/-- Witness for C7 at a concrete walk with the default extensions: the
`.PDF` file matches case-insensitively, the `.md` file is silently
skipped, and the corrupt `.txt` file yields an error record while the
walk continues. -/
theorem C7_folder_report_witness :
    add_documents_from_folder dpMix initState
        [("r", "a.PDF"), ("r", "b.md"), ("r", "c.txt")]
        (some [".pdf", ".docx", ".txt"])
      = processMatching dpMix initState ["r/a.PDF", "r/c.txt"] := by
  have h := (C7_folder_report dpMix initState
    [("r", "a.PDF"), ("r", "b.md"), ("r", "c.txt")]
    [".pdf", ".docx", ".txt"] (by decide)).1
  rw [h]
  rfl
